import Mathlib

/-!
Verification of the competitor-monitor scraping pipeline.

Shallow embedding of the Python sources:
  - `utils/dom_cleaner.py`        (clean_html_content, split_into_batches)
  - `utils/llm_processor.py`      (pydantic validation, prompt building)
  - `utils2/small_llm_processor.py` (per-entry salvage validation)
  - `competitors/scraper.py`      (scrape_competitor_website,
                                   save_products_to_database, analyze_price_changes)

Python strings are modelled as `List Char`; Python floats as `Rat`
(only comparisons and field copies occur on prices); Django querysets as
Lean lists ordered as the corresponding Meta ordering dictates; raising
Python code as `Except PyExn`.
-/

/-- Python strings are modelled as lists of characters. -/
abbrev Txt := List Char

/-- Coerce a Lean string literal to the `Txt` model. -/
def txt (s : String) : Txt := s.data

/-- The characters stripped by Python `str.strip()` with no argument. -/
def pyWhitespace (c : Char) : Bool :=
  c = ' ' ∨ c = '\t' ∨ c = '\n' ∨ c = '\r' ∨ c = '\x0b' ∨ c = '\x0c'

/-- Python `str.lstrip()`. -/
def pyLStrip (s : Txt) : Txt := s.dropWhile pyWhitespace

/-- Python `str.rstrip()`. -/
def pyRStrip (s : Txt) : Txt := (s.reverse.dropWhile pyWhitespace).reverse

/-- Python `str.strip()`. -/
def pyStrip (s : Txt) : Txt := pyRStrip (pyLStrip s)

/-- The sentence separator `". "` used by `split_into_batches`. -/
def dotSpace : Txt := ['.', ' ']

/-- Python `sep.join(pieces)`. -/
def joinSep (sep : Txt) : List Txt → Txt
  | [] => []
  | [x] => x
  | x :: y :: rest => x ++ sep ++ joinSep sep (y :: rest)

/-- Prepend a character to the first piece of a split (helper for `pySplitDotSpace`). -/
def consHead (c : Char) : List Txt → List Txt
  | [] => [[c]]
  | s :: ss => (c :: s) :: ss

/-- Python `text.split('. ')`: scan left to right, cutting at each
non-overlapping occurrence of `". "`. -/
def pySplitDotSpace : Txt → List Txt
  | '.' :: ' ' :: rest => [] :: pySplitDotSpace rest
  | c :: rest => consHead c (pySplitDotSpace rest)
  | [] => [[]]

/-- The accumulation loop of `split_into_batches` (dom_cleaner.py lines 29-43):
greedily grow `cur`; on overflow flush the stripped current batch (when
non-empty) and restart from the overflowing sentence; flush the tail at the end. -/
def batchLoop (maxc : Nat) : List Txt → Txt → List Txt
  | [], cur => if cur.isEmpty then [] else [pyStrip cur]
  | s :: rest, cur =>
    if cur.length + s.length + 2 ≤ maxc then
      batchLoop maxc rest (cur ++ s ++ dotSpace)
    else
      (if cur.isEmpty then [] else [pyStrip cur]) ++ batchLoop maxc rest (s ++ dotSpace)

/-- `split_into_batches` (dom_cleaner.py lines 21-44). -/
def split_into_batches (text : Txt) (max_chars : Nat) : List Txt :=
  if text.length ≤ max_chars then [text]
  else batchLoop max_chars (pySplitDotSpace text) []

/-- A string whose first character is not Python whitespace (vacuously true
when empty).  Hypothesis under which `str.strip` does not eat into a batch. -/
def noLeadWS : Txt → Bool
  | [] => true
  | c :: _ => !pyWhitespace c

/-- Does the string contain two consecutive whitespace characters? -/
def hasWsRun : Txt → Bool
  | c1 :: c2 :: rest => (pyWhitespace c1 && pyWhitespace c2) || hasWsRun (c2 :: rest)
  | _ => false

/-- No two consecutive whitespace characters. -/
def noWsRun (s : Txt) : Prop := hasWsRun s = false

instance (s : Txt) : Decidable (noWsRun s) :=
  inferInstanceAs (Decidable (hasWsRun s = false))

/-!  ## Content Cleaner (`clean_html_content`, dom_cleaner.py lines 5-18)

`clean_html_content` parses the markup with BeautifulSoup, decomposes every
`script/style/nav/footer/header/aside/iframe/noscript` element, and returns
`soup.get_text(separator=' ', strip=True)`.  The parsed DOM is modelled as a
tree of element and text nodes; `decompose` removes whole subtrees;
`get_text(separator=' ', strip=True)` joins the stripped non-empty text-node
strings, in document order, with a single blank. -/

/-- A parsed DOM node: either a text node or an element with a tag and children. -/
inductive HNode where
  | text (s : Txt)
  | elem (tag : Txt) (children : List HNode)

/-- The tag list passed to `soup(...)` for decomposition (dom_cleaner.py line 12). -/
def removedTags : List Txt :=
  [txt "script", txt "style", txt "nav", txt "footer", txt "header",
   txt "aside", txt "iframe", txt "noscript"]

mutual

/-- Decompose the blacklisted elements inside one node (a decomposed root
vanishes entirely, hence the list result). -/
def removeTagsNode : HNode → List HNode
  | .text s => [.text s]
  | .elem t cs => if t ∈ removedTags then [] else [.elem t (removeTagsList cs)]

/-- Decompose the blacklisted elements inside a forest. -/
def removeTagsList : List HNode → List HNode
  | [] => []
  | n :: ns => removeTagsNode n ++ removeTagsList ns

end

mutual

/-- All text-node strings of a node, in document order (`soup.strings`). -/
def stringsNode : HNode → List Txt
  | .text s => [s]
  | .elem _ cs => stringsList cs

/-- All text-node strings of a forest, in document order. -/
def stringsList : List HNode → List Txt
  | [] => []
  | n :: ns => stringsNode n ++ stringsList ns

end

mutual

/-- Property-side definition, following the specification words: the text-node
strings that are not dominated by any blacklisted element. -/
def visibleStringsNode : HNode → List Txt
  | .text s => [s]
  | .elem t cs => if t ∈ removedTags then [] else visibleStringsList cs

/-- Property-side definition on forests. -/
def visibleStringsList : List HNode → List Txt
  | [] => []
  | n :: ns => visibleStringsNode n ++ visibleStringsList ns

end

/-- `soup.stripped_strings`: each string stripped, empties skipped. -/
def strippedStrings (l : List Txt) : List Txt :=
  (l.map pyStrip).filter (fun s => !s.isEmpty)

/-- `get_text(separator=' ', strip=True)` over a forest. -/
def pyGetTextList (nodes : List HNode) : Txt :=
  joinSep [' '] (strippedStrings (stringsList nodes))

/-- `clean_html_content` (dom_cleaner.py lines 5-18), from the parsed DOM on. -/
def clean_html_content (root : HNode) : Txt :=
  pyGetTextList (removeTagsList [root])

/-!  ## Extraction Client (`utils/llm_processor.py`, `utils2/small_llm_processor.py`)

A validated product record (pydantic `ProductExtraction`) and the raw JSON
product entries of a model response.  Python floats are modelled as `Rat`
(prices are only compared against 0 here); a raw field that is absent is
`none` (a present field of the wrong JSON type is not modelled). -/

/-- Python exceptions relevant to the embedded code paths. -/
inductive PyExn where
  | attributeError
  | typeError
  | indexError
  | doesNotExist
  | other (msg : Txt)
deriving DecidableEq, Repr

/-- A validated record (pydantic `ProductExtraction`, both processors). -/
structure ExtractedRecord where
  product_identifier : Txt
  name : Txt
  price : Rat
  currency : Txt
  category : Option Txt
  description : Option Txt
  product_url : Option Txt
  image_url : Option Txt
  is_available : Bool
deriving DecidableEq, Repr

/-- A raw product entry of the parsed JSON tree (fields may be absent). -/
structure RawProduct where
  product_identifier : Option Txt
  name : Option Txt
  price : Option Rat
  currency : Option Txt
  category : Option Txt
  description : Option Txt
  product_url : Option Txt
  image_url : Option Txt
  is_available : Option Bool
deriving DecidableEq, Repr

/-- The optional category constraint (`max_length=255`). -/
def catOk : Option Txt → Bool
  | none => true
  | some c => c.length ≤ 255

/-- Pydantic validation of one product entry: required `product_identifier`
(1..255), `name` (1..500), `price` (> 0); `currency` defaults to `"DT"` with a
maximum length (3 in `llm_processor`, 10 in `small_llm_processor`);
`is_available` defaults to `True`. -/
def validateProduct (currencyMax : Nat) (e : RawProduct) : Option ExtractedRecord :=
  match e.product_identifier, e.name, e.price with
  | some pid, some nm, some pr =>
    let cur := e.currency.getD (txt "DT")
    if 1 ≤ pid.length ∧ pid.length ≤ 255 ∧ 1 ≤ nm.length ∧ nm.length ≤ 500 ∧
        0 < pr ∧ cur.length ≤ currencyMax ∧ catOk e.category = true then
      some ⟨pid, nm, pr, cur, e.category, e.description, e.product_url, e.image_url,
        e.is_available.getD true⟩
    else none
  | _, _, _ => none

/-- A raw promotion entry: a JSON string, a JSON object (with the optional
descriptive fields the code probes, plus its Python `str(...)` rendering,
which is not otherwise derivable in the model), or another JSON value with
its rendering. -/
inductive RawPromo where
  | str (v : Txt)
  | dict (description name code textf : Option Txt) (render : Txt)
  | other (render : Txt)
deriving DecidableEq, Repr

/-- A chain of Python `or` over optional string fields with a final fallback:
the first present non-empty string wins (Python treats `""` and `None` as falsy). -/
def pyOr : List (Option Txt) → Txt → Txt
  | [], dflt => dflt
  | o :: rest, dflt =>
    match o with
    | some s => if s.isEmpty then pyOr rest dflt else s
    | none => pyOr rest dflt

/-- `llm_processor`: promotions must already be plain strings (`List[str]`,
no validator). -/
def promoAsString : RawPromo → Option Txt
  | .str v => some v
  | _ => none

/-- `small_llm_processor` `convert_promotions_to_strings` (mode `before`):
total coercion of any promotion entry to a string. -/
def promoValidatorString : RawPromo → Txt
  | .str v => v
  | .dict d n c t r => pyOr [d, n, c, t] r
  | .other r => r

/-- `small_llm_processor` manual recovery loop (lines 227-237): strings kept,
dicts coerced via `description`/`name`/`code`/`str(...)`, other types skipped. -/
def promoFallback : RawPromo → Option Txt
  | .str v => some v
  | .dict d n c _ r => some (pyOr [d, n, c] r)
  | .other _ => none

/-- The parsed JSON tree of a model response: `none` fields are absent keys
(pydantic then applies the `[]` default). -/
structure RawResponse where
  products : Option (List RawProduct)
  promotions : Option (List RawPromo)
deriving DecidableEq, Repr

/-- The validated response (`LLMResponse`). -/
structure LLMResp where
  products : List ExtractedRecord
  promotions : List Txt
deriving DecidableEq, Repr

/-- Sequence a list of optional values: `some` of all of them, or `none` if
any is missing (pydantic list validation fails when any entry fails). -/
def allSome {α : Type} : List (Option α) → Option (List α)
  | [] => some []
  | none :: _ => none
  | some a :: rest => (allSome rest).map (fun l => a :: l)

/-- `LLMResponse.model_validate_json` of `llm_processor`: every product entry
and every promotion entry must validate, else the whole response is rejected. -/
def model_validate_llm (r : RawResponse) : Option LLMResp :=
  match allSome ((r.products.getD []).map (validateProduct 3)),
        allSome ((r.promotions.getD []).map promoAsString) with
  | some recs, some ps => some ⟨recs, ps⟩
  | _, _ => none

/-- `extract_products_with_llm`, validation stage (llm_processor.py lines
134-145): a `ValidationError` yields the empty response. -/
def llmValidateContent (r : RawResponse) : LLMResp :=
  (model_validate_llm r).getD ⟨[], []⟩

/-- `LLMResponse.model_validate` of `small_llm_processor`: the promotions
field validator is total, so only product entries can fail. -/
def model_validate_small (r : RawResponse) : Option LLMResp :=
  match allSome ((r.products.getD []).map (validateProduct 10)) with
  | some recs => some ⟨recs, (r.promotions.getD []).map promoValidatorString⟩
  | none => none

/-- `extract_products_with_small_llm`, validation stage with per-entry
salvage (small_llm_processor.py lines 199-239). -/
def smallValidateContent (r : RawResponse) : LLMResp :=
  match model_validate_small r with
  | some resp => resp
  | none =>
    { products := (r.products.getD []).filterMap (validateProduct 10),
      promotions := (r.promotions.getD []).filterMap promoFallback }

/-- The fixed pieces of the f-string user prompt (llm_processor.py lines 101-106). -/
def promptPart1 : Txt := txt "Analyse le texte suivant provenant du site: "

def promptPart2 : Txt := txt "\n\nTEXTE À ANALYSER:\n"

def promptPart3 : Txt := txt " \n\nExtrait TOUS les produits avec leurs informations complètes."

/-- The user message sent to the model: only `text_batch[:5000]` is interpolated. -/
def userPrompt (competitor_base_url text_batch : Txt) : Txt :=
  promptPart1 ++ competitor_base_url ++ promptPart2 ++ text_batch.take 5000 ++ promptPart3

/-- `extract_products_with_llm` (llm_processor.py lines 71-149): issue the
chat request (an external capability that may raise), then validate; every
exception is caught and turned into the empty response. -/
def extract_products_with_llm (chat : Txt → Except PyExn RawResponse)
    (text_batch competitor_base_url : Txt) : LLMResp :=
  match chat (userPrompt competitor_base_url text_batch) with
  | .ok raw => llmValidateContent raw
  | .error _ => ⟨[], []⟩

/-!  ## Catalog, ledger, alerts and sessions
(`competitors/models.py`, `alerts/models.py`, `competitors/scraper.py`)

Rows are scoped to one competitor; users, UUID primary keys, timestamps and
the textual title/message of alerts are elided (no claim depends on them).
`PriceHistory` rows are stored in insertion order, which coincides with
`recorded_at` ascending (auto-now timestamps); the model Meta ordering
`-recorded_at` is realised by reversing. -/

inductive AlertType where
  | price_increase
  | price_decrease
  | new_product
  | product_unavailable
  | promotion_detected
deriving DecidableEq, Repr

inductive Severity where
  | low
  | medium
  | high
deriving DecidableEq, Repr

/-- An `alerts.Alert` row; `new_value` keeps the price snapshot. -/
structure AlertRow where
  alert_type : AlertType
  severity : Severity
  productIdent : Txt
  old_value : Option Rat
  new_value : Rat
deriving DecidableEq, Repr

/-- A `competitors.Product` row. -/
structure ProductRow where
  product_identifier : Txt
  name : Txt
  description : Option Txt
  category : Option Txt
  product_url : Txt
  image_url : Option Txt
  current_price : Rat
  currency : Txt
  is_available : Bool
deriving DecidableEq, Repr

/-- A `competitors.PriceHistory` row. -/
structure PriceHistoryRow where
  productIdent : Txt
  price : Rat
  scrape_session_id : Option Nat
deriving DecidableEq, Repr

/-- The persistent state attached to one competitor. -/
structure CompetitorState where
  base_url : Txt
  products : List ProductRow
  history : List PriceHistoryRow
  alerts : List AlertRow
  last_scraped : Bool
deriving DecidableEq, Repr

/-- The store, keyed by competitor id. -/
structure World where
  competitors : List (Nat × CompetitorState)
deriving DecidableEq, Repr

/-- `Competitor.objects.get(id=competitor_id)` (None models `DoesNotExist`). -/
def lookupCompetitor (w : World) (cid : Nat) : Option CompetitorState :=
  (w.competitors.find? (fun p => p.1 == cid)).map (fun p => p.2)

/-- Store back the (single) competitor row. -/
def updateCompetitor (w : World) (cid : Nat) (c : CompetitorState) : World :=
  ⟨w.competitors.map (fun p => if p.1 == cid then (p.1, c) else p)⟩

/-!  ## Product Reconciler (`save_products_to_database`, scraper.py lines 142-193) -/

/-- One iteration of the save loop (scraper.py lines 148-191): `get_or_create`
the product by `(competitor, product_identifier)`; on creation emit one
`new_product` alert (severity medium); always append one `PriceHistory` row
with the record price and the session id.  The per-record `try/except`
is unobservable in this pure model (no persistence failures occur). -/
def saveOne (base_url : Txt) (session_id : Nat) (db : CompetitorState)
    (r : ExtractedRecord) : CompetitorState :=
  match db.products.find? (fun p => p.product_identifier == r.product_identifier) with
  | some _ =>
    { db with history := db.history ++ [⟨r.product_identifier, r.price, some session_id⟩] }
  | none =>
    let newp : ProductRow :=
      { product_identifier := r.product_identifier
        name := r.name
        description := r.description
        category := r.category
        product_url := pyOr [r.product_url] base_url
        image_url := r.image_url
        current_price := r.price
        currency := r.currency
        is_available := r.is_available }
    { db with
        products := db.products ++ [newp]
        alerts := db.alerts ++ [⟨.new_product, .medium, r.product_identifier, none, r.price⟩]
        history := db.history ++ [⟨r.product_identifier, r.price, some session_id⟩] }

/-- `save_products_to_database`: fold the save loop; the returned count is one
per record (the pure model has no skipped records). -/
def save_products_to_database (products_data : List ExtractedRecord)
    (base_url : Txt) (session_id : Nat) (db : CompetitorState) : CompetitorState × Nat :=
  (products_data.foldl (saveOne base_url session_id) db, products_data.length)

/-- Does a product row with this identifier exist? -/
def prodExists (db : CompetitorState) (ident : Txt) : Bool :=
  db.products.any (fun p => p.product_identifier == ident)

/-- Number of `new_product` alerts of severity medium for this identifier. -/
def newProductAlertCount (db : CompetitorState) (ident : Txt) : Nat :=
  (db.alerts.filter
    (fun a => a.alert_type == AlertType.new_product && a.severity == Severity.medium &&
      a.productIdent == ident)).length

/-- The identifiers of the catalog rows. -/
def identsOf (db : CompetitorState) : List Txt :=
  db.products.map (fun p => p.product_identifier)

/-!  ## Price Analyzer (`analyze_price_changes`, scraper.py lines 196-248) -/

/-- The error messages `str(e)` used in returned payloads.  (For the two
class-level exceptions the model keeps the class name; Python would add the
detailed message text.) -/
def pyExnMsg : PyExn → Txt
  | .attributeError => txt "AttributeError"
  | .typeError => txt "TypeError"
  | .indexError => txt "list index out of range"
  | .doesNotExist => txt "DoesNotExist"
  | .other m => m

/-- `recent_prices.price` (scraper.py line 215): attribute access on a
QuerySet value; a Django QuerySet has no `price` attribute, so this raises
`AttributeError` before any price is read. -/
def querySetPriceAttr (_rows : List PriceHistoryRow) : Except PyExn Rat :=
  .error .attributeError

/-- `float(x)[4]` (scraper.py line 216): subscripting a float raises
`TypeError`. -/
def floatSubscript (_x : Rat) (_i : Nat) : Except PyExn Rat :=
  .error .typeError

/-- `product.price_history.all()`: the rows of one product, most recent first
(Meta ordering `-recorded_at`). -/
def priceHistoryDesc (db : CompetitorState) (p : ProductRow) : List PriceHistoryRow :=
  (db.history.filter (fun h => h.productIdent == p.product_identifier)).reverse

/-- The loop body of `analyze_price_changes` for one product (scraper.py
lines 208-243).  Everything after the two raising accessors is dead code but
is embedded as written (the spec-intended reading would use the two row
prices; note also that a zero previous price would divide by zero there). -/
def analyzeOne (db : CompetitorState) (n : Nat) (p : ProductRow) :
    Except PyExn (CompetitorState × Nat) := do
  let recent_prices := (priceHistoryDesc db p).take 2
  if recent_prices.length < 2 then
    pure (db, n)
  else do
    let current_price ← querySetPriceAttr recent_prices
    let prevFloat ← querySetPriceAttr recent_prices
    let previous_price ← floatSubscript prevFloat 4
    let price_change_pct := (current_price - previous_price) / previous_price * 100
    if 5 ≤ |price_change_pct| then
      let atype := if price_change_pct < 0 then AlertType.price_decrease
        else AlertType.price_increase
      let sever := if 15 ≤ |price_change_pct| then Severity.high else Severity.medium
      let db' : CompetitorState := { db with
        alerts := db.alerts ++
          [⟨atype, sever, p.product_identifier, some previous_price, current_price⟩]
        products := db.products.map (fun q =>
          if q.product_identifier == p.product_identifier then
            { q with current_price := current_price }
          else q) }
      pure (db', n + 1)
    else
      pure (db, n)

/-- The `for product in competitor.products.all()` loop. -/
def analyzeLoop : List ProductRow → CompetitorState → Nat →
    Except PyExn (CompetitorState × Nat)
  | [], db, n => .ok (db, n)
  | p :: ps, db, n => do
    let (db', n') ← analyzeOne db n p
    analyzeLoop ps db' n'

/-- The result dictionary of `analyze_price_changes` (`none` = absent key). -/
structure AnalyzeRes where
  success : Bool
  alerts_created : Option Nat
  error : Option Txt
deriving DecidableEq, Repr

/-- `analyze_price_changes` (scraper.py lines 196-248).  Only the competitor
lookup is guarded by `try/except`; any exception raised inside the product
loop propagates to the caller, hence the `Except` result type. -/
def analyze_price_changes (w : World) (cid : Nat) :
    Except PyExn (World × AnalyzeRes) :=
  match lookupCompetitor w cid with
  | none => .ok (w, ⟨false, none, some (txt "Concurrent introuvable")⟩)
  | some competitor => do
    let (competitor', alerts_created) ← analyzeLoop competitor.products competitor 0
    .ok (updateCompetitor w cid competitor', ⟨true, some alerts_created, none⟩)

/-!  ## Scrape Session Controller (`scrape_competitor_website`, scraper.py
lines 15-139) -/

/-- `ScrapeSession.status` (models.py `STATUS_CHOICES`; model default is
`pending`). -/
inductive SessionStatus where
  | pending
  | running
  | completed
  | failed
deriving DecidableEq, Repr

/-- A `ScrapeSession` row snapshot (timestamps and token counter elided). -/
structure Session where
  status : SessionStatus
  products_found : Nat
  errors : Option Txt
  raw_html : Option Txt
deriving DecidableEq, Repr

/-- The consumed external capabilities: the selenium fetch (driver setup,
navigation, body `innerHTML`; may raise), the BeautifulSoup parse of the
fetched markup (best-effort, total), and the ollama chat call on the user
message (may raise; the constant system message plays no role). -/
structure ScrapeEnv where
  fetchHtml : Txt → Except PyExn Txt
  parseHtml : Txt → HNode
  chat : Txt → Except PyExn RawResponse

/-- The result dictionary of `scrape_competitor_website` (`none` = absent key). -/
structure ScrapeResult where
  success : Bool
  products_found : Option Nat
  promotions : Option (List Txt)
  session_id : Option Nat
  error : Option Txt
deriving DecidableEq, Repr

/-- The observable outcome of one run: the returned dictionary, the updated
store, the successive saved states of the session row, and the batches
submitted to the extraction client. -/
structure ScrapeOutput where
  result : ScrapeResult
  world : World
  sessionTrace : List Session
  submitted : List Txt
deriving Repr

/-- Python `list[i]` for a non-negative index: `IndexError` when out of range. -/
def pyIndex {α : Type} (l : List α) (i : Nat) : Except PyExn α :=
  match l.get? i with
  | some x => .ok x
  | none => .error .indexError

/-- `scrape_competitor_website` (scraper.py lines 15-139).  The session is
created directly with `status='running'`; everything after its creation runs
inside `try/except`, so the operation itself is total: a raising stage turns
into a failed session and a `success=False` payload.  Only the third batch
(index 2) is submitted to the extraction client. -/
def scrape_competitor_website (env : ScrapeEnv) (w : World) (cid : Nat)
    (session_id : Nat) : ScrapeOutput :=
  match lookupCompetitor w cid with
  | none =>
    ⟨⟨false, none, none, none, some (txt "Concurrent introuvable")⟩, w, [], []⟩
  | some competitor =>
    let session0 : Session := ⟨.running, 0, none, none⟩
    match env.fetchHtml competitor.base_url with
    | .error e =>
      let sessionF : Session := { session0 with status := .failed, errors := some (pyExnMsg e) }
      ⟨⟨false, none, none, none, some (pyExnMsg e)⟩, w, [session0, sessionF], []⟩
    | .ok raw_html =>
      let session1 : Session := { session0 with raw_html := some (raw_html.take 50000) }
      let cleaned_text := clean_html_content (env.parseHtml raw_html)
      let batches := split_into_batches cleaned_text 7500
      match pyIndex batches 2 with
      | .error e =>
        let sessionF : Session :=
          { session1 with status := .failed, errors := some (pyExnMsg e) }
        ⟨⟨false, none, none, none, some (pyExnMsg e)⟩, w, [session0, session1, sessionF], []⟩
      | .ok batch =>
        let llm_response := extract_products_with_llm env.chat batch competitor.base_url
        let saved := save_products_to_database llm_response.products
          competitor.base_url session_id competitor
        let session2 : Session :=
          { session1 with status := .completed, products_found := saved.2 }
        let competitor' : CompetitorState := { saved.1 with last_scraped := true }
        ⟨⟨true, some saved.2, some llm_response.promotions, some session_id, none⟩,
          updateCompetitor w cid competitor', [session0, session1, session2], [batch]⟩

/-!  ## Concrete instances used by the claim-level theorems -/

/-- A validated record for identifier SKU1 at price 100. -/
def recSKU1 : ExtractedRecord :=
  ⟨txt "SKU1", txt "Rose", 100, txt "DT", none, none, none, none, true⟩

/-- A second sighting of SKU1, at price 80. -/
def recSKU1b : ExtractedRecord :=
  ⟨txt "SKU1", txt "Rose", 80, txt "DT", none, none, none, none, true⟩

/-- A competitor with an empty catalog. -/
def emptyComp : CompetitorState := ⟨txt "https://shop.example", [], [], [], false⟩

/-- A catalog row for SKU1. -/
def prodSKU1 : ProductRow :=
  ⟨txt "SKU1", txt "Rose", none, none, txt "https://shop.example", none, 100, txt "DT", true⟩

/-- A competitor whose product SKU1 has two ledger rows (100 then 80). -/
def compWithHistory : CompetitorState :=
  ⟨txt "https://shop.example", [prodSKU1],
   [⟨txt "SKU1", 100, some 1⟩, ⟨txt "SKU1", 80, some 2⟩], [], false⟩

/-- A store holding `compWithHistory` under id 1. -/
def worldWithHistory : World := ⟨[(1, compWithHistory)]⟩

/-- A catalog row for SKU2. -/
def prodSKU2 : ProductRow :=
  ⟨txt "SKU2", txt "Tulipe", none, none, txt "https://shop.example", none, 60, txt "DT", true⟩

/-- A second competitor whose product SKU2 has two ledger rows (50 then 60). -/
def compTwoRows : CompetitorState :=
  ⟨txt "https://shop.example", [prodSKU2],
   [⟨txt "SKU2", 50, some 1⟩, ⟨txt "SKU2", 60, some 3⟩], [], false⟩

/-- A store holding `compTwoRows` under id 1. -/
def worldTwoRows : World := ⟨[(1, compTwoRows)]⟩

/-- A store with no competitors. -/
def emptyWorld : World := ⟨[]⟩

/-- An environment whose fetch yields a short page: the parse returns the
fetched text as a single text node, and chat returns an empty response. -/
def shortPageEnv : ScrapeEnv :=
  ⟨fun _ => .ok (txt "Produits du concurrent"),
   fun s => HNode.text s,
   fun _ => .ok ⟨some [], some []⟩⟩

/-- A raw product entry that validates. -/
def goodEntry : RawProduct :=
  ⟨some (txt "SKU1"), some (txt "Rose"), some 100, none, none, none, none, none, none⟩

/-- A raw product entry with a non-positive price, rejected by validation. -/
def badEntry : RawProduct :=
  ⟨some (txt "SKU2"), some (txt "Tulipe"), some (-5), none, none, none, none, none, none⟩

/-- A model response with one valid and one invalid product entry. -/
def mixedResponse : RawResponse := ⟨some [goodEntry, badEntry], some []⟩

/-- A DOM with a whitespace run inside one text node. -/
def runTree : HNode := .elem (txt "p") [.text (txt "a  b")]

/-- A DOM with a script element beside an ordinary text node. -/
def scriptTree : HNode :=
  .elem (txt "div") [.elem (txt "script") [.text (txt "var x")], .text (txt "Nos produits")]

section BatcherLemmas

theorem consHead_ne_nil (c : Char) (l : List Txt) : consHead c l ≠ [] := by
  rcases l with _ | ⟨s, ss⟩ <;> simp [consHead]

theorem pySplitDotSpace_cons_of_not_sep (c : Char) (rest : Txt)
    (h : ∀ rest₁, c = '.' → rest = ' ' :: rest₁ → False) :
    pySplitDotSpace (c :: rest) = consHead c (pySplitDotSpace rest) := by
  rw [pySplitDotSpace.eq_def]
  split
  · rename_i rest' heq
    simp only [List.cons.injEq] at heq
    exact absurd heq.2 (fun hr => h rest' heq.1 hr)
  · rename_i c' rest' heq
    injection heq with h1 h2
    subst h1; subst h2; rfl
  · rename_i heq; simp at heq

theorem pySplitDotSpace_ne_nil (l : Txt) : pySplitDotSpace l ≠ [] := by
  induction l using pySplitDotSpace.induct with
  | case1 rest ih => simp [pySplitDotSpace]
  | case2 c rest h ih =>
    rw [pySplitDotSpace_cons_of_not_sep c rest h]
    exact consHead_ne_nil _ _
  | case3 => simp [pySplitDotSpace]

theorem joinSep_cons_of_ne_nil (sep x : Txt) (l : List Txt) (h : l ≠ []) :
    joinSep sep (x :: l) = x ++ sep ++ joinSep sep l := by
  rcases l with _ | ⟨y, rest⟩
  · exact absurd rfl h
  · rfl

theorem joinSep_consHead (sep : Txt) (c : Char) (l : List Txt) (h : l ≠ []) :
    joinSep sep (consHead c l) = c :: joinSep sep l := by
  rcases l with _ | ⟨s, ss⟩
  · exact absurd rfl h
  · rcases ss with _ | ⟨t, ts⟩
    · rfl
    · simp [consHead, joinSep]

/-- Rejoining the pieces of `text.split('. ')` with `". "` gives back `text`. -/
theorem joinSep_pySplitDotSpace (l : Txt) :
    joinSep dotSpace (pySplitDotSpace l) = l := by
  induction l using pySplitDotSpace.induct with
  | case1 rest ih =>
    rw [pySplitDotSpace]
    rw [joinSep_cons_of_ne_nil _ _ _ (pySplitDotSpace_ne_nil rest), ih]
    rfl
  | case2 c rest h ih =>
    rw [pySplitDotSpace_cons_of_not_sep c rest h,
      joinSep_consHead _ _ _ (pySplitDotSpace_ne_nil rest), ih]
  | case3 => rfl

theorem flush_of_ne_nil (cur : Txt) (h : cur ≠ []) :
    (if cur.isEmpty then ([] : List Txt) else [pyStrip cur]) = [pyStrip cur] := by
  rcases cur with _ | ⟨c, l⟩
  · exact absurd rfl h
  · rfl

theorem noLeadWS_append_dotSpace (w s : Txt) (hw : noLeadWS w = true) :
    noLeadWS (w ++ dotSpace ++ s) = true := by
  rcases w with _ | ⟨c, l⟩
  · rfl
  · exact hw

theorem pyLStrip_of_noLeadWS (s : Txt) (h : noLeadWS s = true) : pyLStrip s = s := by
  rcases s with _ | ⟨c, l⟩
  · rfl
  · simp only [noLeadWS, Bool.not_eq_eq_eq_not, Bool.not_true] at h
    simp [pyLStrip, h]

theorem pyStrip_sentence (w : Txt) (hw : noLeadWS w = true) :
    pyStrip (w ++ dotSpace) = w ++ ['.'] := by
  have hnl : noLeadWS (w ++ dotSpace) = true := by
    rcases w with _ | ⟨c, l⟩
    · rfl
    · exact hw
  rw [pyStrip, pyLStrip_of_noLeadWS _ hnl]
  show (((w ++ dotSpace).reverse.dropWhile pyWhitespace)).reverse = w ++ ['.']
  have hrev : (w ++ dotSpace).reverse = ' ' :: '.' :: w.reverse := by
    simp [dotSpace]
  have hws : pyWhitespace ' ' = true := by decide
  have hwd : pyWhitespace '.' = false := by decide
  rw [hrev, List.dropWhile_cons, hws, if_pos rfl, List.dropWhile_cons, hwd]
  simp

theorem batchLoop_ne_nil (maxc : Nat) (sentences : List Txt) :
    ∀ cur : Txt, cur ≠ [] → batchLoop maxc sentences cur ≠ [] := by
  induction sentences with
  | nil =>
    intro cur h
    rw [batchLoop, flush_of_ne_nil _ h]
    simp
  | cons s rest ih =>
    intro cur h
    rw [batchLoop]
    split
    · exact ih _ (by simp [dotSpace])
    · rw [flush_of_ne_nil _ h]; simp

theorem joinSep_glue (sep a b : Txt) (l : List Txt) :
    joinSep sep ((a ++ sep ++ b) :: l) = a ++ sep ++ joinSep sep (b :: l) := by
  rcases l with _ | ⟨t, ts⟩
  · rfl
  · simp [joinSep, List.append_assoc]

/-- Invariant of the accumulation loop: joining the produced batches with a
single blank reproduces the pending accumulated sentence followed by the
remaining sentences (each separated by `". "`), with one final `'.'` appended. -/
theorem batchLoop_join (maxc : Nat) :
    ∀ sentences : List Txt, (∀ s ∈ sentences, noLeadWS s = true) →
    ∀ w : Txt, noLeadWS w = true →
    joinSep [' '] (batchLoop maxc sentences (w ++ dotSpace)) =
      joinSep dotSpace (w :: sentences) ++ ['.'] := by
  intro sentences
  induction sentences with
  | nil =>
    intro _ w hw
    rw [batchLoop, flush_of_ne_nil _ (by simp [dotSpace]), pyStrip_sentence w hw]
    rfl
  | cons s rest ih =>
    intro hs w hw
    have hsin : noLeadWS s = true := hs s (by simp)
    have hrest : ∀ t ∈ rest, noLeadWS t = true := fun t ht => hs t (by simp [ht])
    rw [batchLoop]
    split
    · have hw' : noLeadWS (w ++ dotSpace ++ s) = true := noLeadWS_append_dotSpace w s hw
      rw [ih hrest _ hw', joinSep_glue,
        joinSep_cons_of_ne_nil dotSpace w (s :: rest) (by simp)]
    · rw [flush_of_ne_nil _ (by simp [dotSpace]), pyStrip_sentence w hw]
      have hne : batchLoop maxc rest (s ++ dotSpace) ≠ [] :=
        batchLoop_ne_nil maxc rest _ (by simp [dotSpace])
      rw [List.singleton_append,
        joinSep_cons_of_ne_nil _ _ _ hne, ih hrest s hsin,
        joinSep_cons_of_ne_nil _ _ _ (by simp : (s :: rest : List Txt) ≠ [])]
      simp [dotSpace, List.append_assoc]

/-- Joining all batches with a single blank reproduces the original text with
one trailing `'.'` appended, for texts longer than the bound whose sentences
do not begin with whitespace. -/
theorem split_into_batches_join (text : Txt) (maxc : Nat) (hlen : maxc < text.length)
    (hs : ∀ s ∈ pySplitDotSpace text, noLeadWS s = true) :
    joinSep [' '] (split_into_batches text maxc) = text ++ ['.'] := by
  rw [split_into_batches, if_neg (by omega)]
  obtain ⟨s, rest, hsr⟩ : ∃ s rest, pySplitDotSpace text = s :: rest := by
    rcases h : pySplitDotSpace text with _ | ⟨s, rest⟩
    · exact absurd h (pySplitDotSpace_ne_nil _)
    · exact ⟨s, rest, rfl⟩
  have hstep : batchLoop maxc (s :: rest) [] = batchLoop maxc rest (s ++ dotSpace) := by
    rw [batchLoop]
    split
    · simp
    · simp
  rw [hsr, hstep]
  have hsin : noLeadWS s = true := hs s (by rw [hsr]; simp)
  have hrest : ∀ t ∈ rest, noLeadWS t = true := fun t ht => hs t (by rw [hsr]; simp [ht])
  rw [batchLoop_join maxc rest hrest s hsin]
  have := joinSep_pySplitDotSpace text
  rw [hsr] at this
  rw [this]

theorem length_dropWhile_le (p : Char → Bool) (l : Txt) :
    (l.dropWhile p).length ≤ l.length := by
  induction l with
  | nil => simp
  | cons c cl ih =>
    rw [List.dropWhile_cons]
    split
    · exact le_trans ih (by simp)
    · simp

theorem pyStrip_length_le (s : Txt) : (pyStrip s).length ≤ s.length := by
  have h1 : (pyLStrip s).length ≤ s.length := length_dropWhile_le _ _
  have h2 : (pyRStrip (pyLStrip s)).length ≤ (pyLStrip s).length := by
    rw [pyRStrip, List.length_reverse]
    calc ((pyLStrip s).reverse.dropWhile pyWhitespace).length
        ≤ (pyLStrip s).reverse.length := length_dropWhile_le _ _
      _ = (pyLStrip s).length := List.length_reverse _
  exact le_trans h2 h1

theorem flush_mem_good (maxc : Nat) (S : List Txt) (cur b : Txt)
    (hcur : cur = [] ∨ cur.length ≤ maxc ∨
      ∃ s ∈ S, cur = s ++ dotSpace ∧ maxc < s.length + 2)
    (hb : b ∈ (if cur.isEmpty then ([] : List Txt) else [pyStrip cur])) :
    b.length ≤ maxc ∨ ∃ s ∈ S, b = pyStrip (s ++ dotSpace) ∧ maxc < s.length + 2 := by
  rcases cur with _ | ⟨c, cl⟩
  · simp at hb
  · have hb' : b = pyStrip (c :: cl) := by simpa using hb
    subst hb'
    rcases hcur with h0 | hle | ⟨s, hsS, heq, hover⟩
    · exact absurd h0 (by simp)
    · exact Or.inl (le_trans (pyStrip_length_le _) hle)
    · exact Or.inr ⟨s, hsS, by rw [heq], hover⟩

/-- Invariant of the accumulation loop: every produced batch either fits the
bound or is the stripped form of a single sentence whose terminated length
overflows the bound. -/
theorem batchLoop_bound (maxc : Nat) (S : List Txt) :
    ∀ sentences : List Txt, (∀ s ∈ sentences, s ∈ S) →
    ∀ cur : Txt,
      (cur = [] ∨ cur.length ≤ maxc ∨ ∃ s ∈ S, cur = s ++ dotSpace ∧ maxc < s.length + 2) →
    ∀ b ∈ batchLoop maxc sentences cur,
      b.length ≤ maxc ∨ ∃ s ∈ S, b = pyStrip (s ++ dotSpace) ∧ maxc < s.length + 2 := by
  intro sentences
  induction sentences with
  | nil =>
    intro _ cur hcur b hb
    rw [batchLoop] at hb
    exact flush_mem_good maxc S cur b hcur hb
  | cons s rest ih =>
    intro hmem cur hcur b hb
    have hsS : s ∈ S := hmem s (by simp)
    have hrest : ∀ t ∈ rest, t ∈ S := fun t ht => hmem t (by simp [ht])
    rw [batchLoop] at hb
    split at hb
    · rename_i hfit
      refine ih hrest _ (Or.inr (Or.inl ?_)) b hb
      have : (cur ++ s ++ dotSpace).length = cur.length + s.length + 2 := by
        simp [dotSpace]; omega
      omega
    · rename_i hnofit
      have hcur' : (s ++ dotSpace = ([] : Txt)) ∨ (s ++ dotSpace : Txt).length ≤ maxc ∨
          ∃ t ∈ S, (s ++ dotSpace : Txt) = t ++ dotSpace ∧ maxc < t.length + 2 := by
        by_cases hfit2 : s.length + 2 ≤ maxc
        · refine Or.inr (Or.inl ?_)
          simp [dotSpace]; omega
        · exact Or.inr (Or.inr ⟨s, hsS, rfl, by omega⟩)
      rcases List.mem_append.1 hb with hb1 | hb2
      · exact flush_mem_good maxc S cur b hcur hb1
      · exact ih hrest _ hcur' b hb2

end BatcherLemmas

section CleanerLemmas

mutual

theorem strings_removeTags_node (n : HNode) :
    stringsList (removeTagsNode n) = visibleStringsNode n := by
  match n with
  | .text s => rfl
  | .elem t cs =>
    rw [removeTagsNode, visibleStringsNode]
    split
    · rfl
    · rw [stringsList, stringsList, stringsNode, List.append_nil]
      exact strings_removeTags_list cs

theorem strings_removeTags_list (l : List HNode) :
    stringsList (removeTagsList l) = visibleStringsList l := by
  match l with
  | [] => rfl
  | n :: ns =>
    rw [removeTagsList, visibleStringsList]
    have h1 := strings_removeTags_node n
    have h2 := strings_removeTags_list ns
    rw [← h1, ← h2]
    -- strings of an appended forest split along the append
    clear h1 h2
    induction removeTagsNode n with
    | nil => rfl
    | cons m ms ih =>
      rw [List.cons_append, stringsList, stringsList, ih, List.append_assoc]

end

theorem noWsRun_chain' (s : Txt) :
    noWsRun s ↔ s.Chain' (fun a b => pyWhitespace a = false ∨ pyWhitespace b = false) := by
  induction s using hasWsRun.induct with
  | case1 c1 c2 rest ih =>
    rw [List.chain'_cons, ← ih, noWsRun, noWsRun, hasWsRun]
    simp only [Bool.or_eq_false_iff, Bool.and_eq_false_iff]
  | case2 s h =>
    rcases s with _ | ⟨c, _ | ⟨d, rest⟩⟩
    · simp [noWsRun, hasWsRun]
    · simp [noWsRun, hasWsRun]
    · exact (h c d rest rfl).elim

theorem noWsRun_tail {s : Txt} (h : noWsRun s) : noWsRun s.tail :=
  (noWsRun_chain' _).mpr ((noWsRun_chain' _).mp h).tail

theorem noWsRun_dropWhile (p : Char → Bool) (l : Txt) (h : noWsRun l) :
    noWsRun (l.dropWhile p) := by
  induction l with
  | nil => simpa using h
  | cons c cl ih =>
    rw [List.dropWhile_cons]
    split
    · exact ih (noWsRun_tail h)
    · exact h

theorem noWsRun_reverse (l : Txt) : noWsRun l.reverse ↔ noWsRun l := by
  rw [noWsRun_chain', noWsRun_chain', List.chain'_reverse]
  constructor
  · exact fun h => h.imp (fun a b hab => hab.symm)
  · exact fun h => h.imp (fun a b hab => hab.symm)

theorem noWsRun_pyStrip (s : Txt) (h : noWsRun s) : noWsRun (pyStrip s) := by
  have h1 : noWsRun (pyLStrip s) := noWsRun_dropWhile _ _ h
  have h2 : noWsRun ((pyLStrip s).reverse) := (noWsRun_reverse _).mpr h1
  exact (noWsRun_reverse _).mpr (noWsRun_dropWhile _ _ h2)

theorem head_dropWhile_false (p : Char → Bool) (l : Txt) :
    ∀ c ∈ (l.dropWhile p).head?, p c = false := by
  induction l with
  | nil => simp
  | cons a al ih =>
    rw [List.dropWhile_cons]
    split
    · exact ih
    · rename_i hpa
      intro c hc
      simp only [List.head?_cons, Option.mem_def, Option.some.injEq] at hc
      subst hc
      exact Bool.not_eq_true _ ▸ (by simpa using hpa)

theorem pyLStrip_decomp (s : Txt) :
    pyLStrip s = pyStrip s ++ ((pyLStrip s).reverse.takeWhile pyWhitespace).reverse := by
  have h := List.takeWhile_append_dropWhile pyWhitespace (pyLStrip s).reverse
  calc pyLStrip s = (pyLStrip s).reverse.reverse := (List.reverse_reverse _).symm
    _ = ((pyLStrip s).reverse.takeWhile pyWhitespace ++
          (pyLStrip s).reverse.dropWhile pyWhitespace).reverse := by rw [h]
    _ = _ := by
      rw [List.reverse_append]
      rfl

theorem pyStrip_headNotWS (s : Txt) : ∀ c ∈ (pyStrip s).head?, pyWhitespace c = false := by
  intro c hc
  have hdec := pyLStrip_decomp s
  have hh : (pyLStrip s).head? = some c := by
    rw [hdec, List.head?_append, hc]
    rfl
  exact head_dropWhile_false pyWhitespace s c hh

theorem pyStrip_lastNotWS (s : Txt) : ∀ c ∈ (pyStrip s).getLast?, pyWhitespace c = false := by
  intro c hc
  rw [pyStrip, pyRStrip, List.getLast?_reverse] at hc
  exact head_dropWhile_false pyWhitespace (pyLStrip s).reverse c hc

theorem noWsRun_joinSep (pieces : List Txt)
    (h : ∀ x ∈ pieces, noWsRun x ∧ x ≠ [] ∧
      (∀ c ∈ x.head?, pyWhitespace c = false) ∧ (∀ c ∈ x.getLast?, pyWhitespace c = false)) :
    noWsRun (joinSep [' '] pieces) ∧
      (∀ c ∈ (joinSep [' '] pieces).head?, pyWhitespace c = false) := by
  induction pieces with
  | nil => exact ⟨rfl, by simp [joinSep]⟩
  | cons x rest ih =>
    rcases rest with _ | ⟨y, ys⟩
    · obtain ⟨hrun, _, hhd, _⟩ := h x (by simp)
      exact ⟨hrun, hhd⟩
    · obtain ⟨hrun, hne, hhd, hlast⟩ := h x (by simp)
      obtain ⟨ihrun, ihhd⟩ := ih (fun z hz => h z (by simp at hz ⊢; tauto))
      have hxs : noWsRun (x ++ [' ']) := by
        rw [noWsRun_chain', List.chain'_append]
        refine ⟨(noWsRun_chain' x).mp hrun, List.chain'_singleton _, ?_⟩
        intro a ha b hb
        simp only [List.head?_cons, Option.mem_def, Option.some.injEq] at hb
        subst hb
        exact Or.inl (hlast a ha)
      constructor
      · show noWsRun (x ++ [' '] ++ joinSep [' '] (y :: ys))
        rw [noWsRun_chain', List.chain'_append]
        refine ⟨(noWsRun_chain' _).mp hxs, (noWsRun_chain' _).mp ihrun, ?_⟩
        intro a ha b hb
        rw [List.getLast?_concat] at ha
        simp only [Option.mem_def, Option.some.injEq] at ha
        subst ha
        exact Or.inr (ihhd b hb)
      · show ∀ c ∈ (x ++ [' '] ++ joinSep [' '] (y :: ys)).head?, pyWhitespace c = false
        intro c hc
        rcases x with _ | ⟨a, al⟩
        · exact absurd rfl hne
        · simp only [List.cons_append, List.head?_cons, Option.mem_def,
            Option.some.injEq] at hc
          subst hc
          exact hhd a rfl

/-- If no visible text node contains a whitespace run, neither does the
cleaned output: the blanks inserted by `get_text` never create runs. -/
theorem clean_html_content_noWsRun (root : HNode)
    (h : ∀ s ∈ visibleStringsNode root, noWsRun s) :
    noWsRun (clean_html_content root) := by
  refine (noWsRun_joinSep _ ?_).1
  intro x hx
  rw [strippedStrings, List.mem_filter] at hx
  obtain ⟨hmem, hne⟩ := hx
  rw [List.mem_map] at hmem
  obtain ⟨s0, hs0, rfl⟩ := hmem
  rw [strings_removeTags_list] at hs0
  have hs0' : s0 ∈ visibleStringsNode root := by
    rw [visibleStringsList, visibleStringsList, List.append_nil] at hs0
    exact hs0
  refine ⟨noWsRun_pyStrip s0 (h s0 hs0'), ?_, pyStrip_headNotWS s0, pyStrip_lastNotWS s0⟩
  intro hnil
  rw [hnil] at hne
  simp at hne

end CleanerLemmas

section ExtractionLemmas

theorem allSome_map_eq_some {α β : Type} (f : α → Option β) :
    ∀ (l : List α) (res : List β), allSome (l.map f) = some res → l.filterMap f = res := by
  intro l
  induction l with
  | nil =>
    intro res h
    simp only [List.map_nil, allSome, Option.some.injEq] at h
    simp [← h]
  | cons a al ih =>
    intro res h
    rw [List.map_cons] at h
    rcases hfa : f a with _ | b
    · rw [hfa] at h
      simp [allSome] at h
    · rw [hfa, allSome] at h
      rcases hrest : allSome (al.map f) with _ | l'
      · rw [hrest] at h
        simp at h
      · rw [hrest] at h
        simp only [Option.map_some', Option.some.injEq] at h
        subst h
        rw [List.filterMap_cons, hfa, ih l' hrest]

/-- The small-model extraction keeps exactly the individually valid entries,
on the happy path and on the salvage path alike. -/
theorem smallValidateContent_products (r : RawResponse) :
    (smallValidateContent r).products = (r.products.getD []).filterMap (validateProduct 10) := by
  rw [smallValidateContent]
  rcases h : model_validate_small r with _ | resp
  · rfl
  · rw [model_validate_small] at h
    rcases hall : allSome ((r.products.getD []).map (validateProduct 10)) with _ | recs
    · rw [hall] at h; simp at h
    · rw [hall] at h
      simp only [Option.some.injEq] at h
      subst h
      exact (allSome_map_eq_some _ _ _ hall).symm

theorem allSome_map_isSome {α β : Type} (f : α → Option β) :
    ∀ (l : List α) (res : List β), allSome (l.map f) = some res → ∀ e ∈ l, f e ≠ none := by
  intro l
  induction l with
  | nil =>
    intro res _ e he
    simp at he
  | cons a al ih =>
    intro res h e he
    rw [List.map_cons] at h
    rcases hfa : f a with _ | b
    · rw [hfa] at h
      simp [allSome] at h
    · rw [hfa, allSome] at h
      rcases hrest : allSome (al.map f) with _ | l'
      · rw [hrest] at h
        simp at h
      · rcases List.mem_cons.1 he with rfl | he'
        · rw [hfa]; simp
        · exact ih l' hrest e he'

/-- If some product entry fails validation, the strict processor rejects the
whole response and returns no products at all. -/
theorem llmValidateContent_empty_of_invalid (r : RawResponse)
    (h : ∃ e ∈ r.products.getD [], validateProduct 3 e = none) :
    (llmValidateContent r).products = [] := by
  obtain ⟨e, he, hnone⟩ := h
  rw [llmValidateContent, model_validate_llm]
  rcases hall : allSome ((r.products.getD []).map (validateProduct 3)) with _ | recs
  · cases allSome ((r.promotions.getD []).map promoAsString) <;> rfl
  · exact absurd hnone (allSome_map_isSome _ _ recs hall e he)

end ExtractionLemmas

section ReconcilerLemmas

theorem saveOne_history (b : Txt) (sid : Nat) (db : CompetitorState) (r : ExtractedRecord) :
    (saveOne b sid db r).history =
      db.history ++ [⟨r.product_identifier, r.price, some sid⟩] := by
  rcases h : db.products.find? (fun p => p.product_identifier == r.product_identifier)
    with _ | p
  · rw [saveOne, h]
  · rw [saveOne, h]

theorem saveOne_prodExists (b : Txt) (sid : Nat) (db : CompetitorState)
    (r : ExtractedRecord) (i : Txt) :
    prodExists (saveOne b sid db r) i =
      (prodExists db i || (r.product_identifier == i)) := by
  rcases h : db.products.find? (fun p => p.product_identifier == r.product_identifier)
    with _ | p
  · rw [saveOne, h]
    unfold prodExists
    simp [List.any_append]
  · rw [saveOne, h]
    show prodExists db i = (prodExists db i || (r.product_identifier == i))
    cases hri : (r.product_identifier == i)
    · simp
    · have hri' : r.product_identifier = i := by simpa using hri
      have hp := List.find?_some h
      have hmem := List.mem_of_find?_eq_some h
      have : prodExists db i = true := by
        unfold prodExists
        rw [List.any_eq_true]
        refine ⟨p, hmem, ?_⟩
        have : p.product_identifier = r.product_identifier := by simpa using hp
        rw [this, hri']
        simp
      rw [this]
      simp

theorem saveOne_alertCount (b : Txt) (sid : Nat) (db : CompetitorState)
    (r : ExtractedRecord) (i : Txt) :
    newProductAlertCount (saveOne b sid db r) i =
      newProductAlertCount db i +
        (if prodExists db r.product_identifier then 0
         else if r.product_identifier == i then 1 else 0) := by
  rcases h : db.products.find? (fun p => p.product_identifier == r.product_identifier)
    with _ | p
  · have hpe : prodExists db r.product_identifier = false := by
      unfold prodExists
      rw [List.any_eq_false]
      intro p hp
      simpa using List.find?_eq_none.mp h p hp
    rw [saveOne, h]
    unfold newProductAlertCount
    rw [hpe]
    show (List.filter _ (db.alerts ++ [_])).length = _
    rw [List.filter_append, List.length_append]
    cases hri : (r.product_identifier == i)
    · simp [hri]
    · simp [hri]
  · have hpe : prodExists db r.product_identifier = true := by
      unfold prodExists
      rw [List.any_eq_true]
      have hp := List.find?_some h
      have hmem := List.mem_of_find?_eq_some h
      exact ⟨p, hmem, hp⟩
    rw [saveOne, h]
    show newProductAlertCount db i = _
    rw [hpe]
    simp

theorem saveOne_nodup (b : Txt) (sid : Nat) (db : CompetitorState) (r : ExtractedRecord)
    (h : (identsOf db).Nodup) : (identsOf (saveOne b sid db r)).Nodup := by
  rcases hf : db.products.find? (fun p => p.product_identifier == r.product_identifier)
    with _ | p
  · rw [saveOne, hf]
    unfold identsOf at h ⊢
    show (List.map _ (db.products ++ [_])).Nodup
    rw [List.map_append]
    rw [List.nodup_append]
    refine ⟨h, List.nodup_singleton _, ?_⟩
    intro x hx hx'
    simp only [List.map_cons, List.map_nil, List.mem_singleton] at hx'
    subst hx'
    rw [List.mem_map] at hx
    obtain ⟨q, hq, hqi⟩ := hx
    have := List.find?_eq_none.mp hf q hq
    rw [hqi] at this
    simp at this
  · rw [saveOne, hf]
    exact h

theorem saveOne_alerts (b : Txt) (sid : Nat) (db : CompetitorState) (r : ExtractedRecord) :
    ∀ a ∈ (saveOne b sid db r).alerts,
      a ∈ db.alerts ∨ a = ⟨.new_product, .medium, r.product_identifier, none, r.price⟩ := by
  intro a ha
  rcases h : db.products.find? (fun p => p.product_identifier == r.product_identifier)
    with _ | p
  · rw [saveOne, h] at ha
    rcases List.mem_append.1 ha with h1 | h2
    · exact Or.inl h1
    · simp only [List.mem_singleton] at h2
      exact Or.inr h2
  · rw [saveOne, h] at ha
    exact Or.inl ha

theorem fold_alerts (b : Txt) (sid : Nat) :
    ∀ (rs : List ExtractedRecord) (db : CompetitorState),
    ∀ a ∈ (rs.foldl (saveOne b sid) db).alerts,
      a ∈ db.alerts ∨ ∃ r ∈ rs,
        a = ⟨.new_product, .medium, r.product_identifier, none, r.price⟩ := by
  intro rs
  induction rs with
  | nil =>
    intro db a ha
    exact Or.inl ha
  | cons r rest ih =>
    intro db a ha
    rw [List.foldl_cons] at ha
    rcases ih (saveOne b sid db r) a ha with h1 | ⟨r', hr', heq⟩
    · rcases saveOne_alerts b sid db r a h1 with h2 | h2
      · exact Or.inl h2
      · exact Or.inr ⟨r, by simp, h2⟩
    · exact Or.inr ⟨r', by simp [hr'], heq⟩

theorem fold_history (b : Txt) (sid : Nat) :
    ∀ (rs : List ExtractedRecord) (db : CompetitorState),
    (rs.foldl (saveOne b sid) db).history =
      db.history ++ rs.map (fun r => ⟨r.product_identifier, r.price, some sid⟩) := by
  intro rs
  induction rs with
  | nil => intro db; simp
  | cons r rest ih =>
    intro db
    rw [List.foldl_cons, ih, saveOne_history, List.map_cons, List.append_assoc]
    rfl

theorem fold_prodExists (b : Txt) (sid : Nat) :
    ∀ (rs : List ExtractedRecord) (db : CompetitorState) (i : Txt),
    prodExists (rs.foldl (saveOne b sid) db) i =
      (prodExists db i || rs.any (fun r => r.product_identifier == i)) := by
  intro rs
  induction rs with
  | nil => intro db i; simp
  | cons r rest ih =>
    intro db i
    rw [List.foldl_cons, ih, saveOne_prodExists, List.any_cons]
    cases prodExists db i <;> cases (r.product_identifier == i) <;> simp

theorem fold_nodup (b : Txt) (sid : Nat) :
    ∀ (rs : List ExtractedRecord) (db : CompetitorState),
    (identsOf db).Nodup → (identsOf (rs.foldl (saveOne b sid) db)).Nodup := by
  intro rs
  induction rs with
  | nil => intro db h; simpa using h
  | cons r rest ih =>
    intro db h
    rw [List.foldl_cons]
    exact ih _ (saveOne_nodup b sid db r h)

theorem fold_alertCount (b : Txt) (sid : Nat) :
    ∀ (rs : List ExtractedRecord) (db : CompetitorState) (i : Txt),
    newProductAlertCount (rs.foldl (saveOne b sid) db) i =
      newProductAlertCount db i +
        (if prodExists db i then 0
         else if rs.any (fun r => r.product_identifier == i) then 1 else 0) := by
  intro rs
  induction rs with
  | nil => intro db i; simp
  | cons r rest ih =>
    intro db i
    rw [List.foldl_cons, ih, saveOne_alertCount, saveOne_prodExists, List.any_cons]
    cases hri : (r.product_identifier == i)
    · simp only [Bool.or_false]
      cases hpe : prodExists db i <;> cases hre : prodExists db r.product_identifier <;>
        simp [hpe, hre]
    · have hri' : r.product_identifier = i := by simpa using hri
      subst hri'
      cases hpe : prodExists db r.product_identifier <;> simp [hpe]

end ReconcilerLemmas

section ControllerLemmas

theorem analyze_notfound (w : World) (cid : Nat) (h : lookupCompetitor w cid = none) :
    analyze_price_changes w cid =
      .ok (w, ⟨false, none, some (txt "Concurrent introuvable")⟩) := by
  rw [analyze_price_changes, h]

/-- Whatever the environment does, the controller returns a well-shaped
payload: `success` with no error key, or failure with an error message. -/
theorem scrape_result_shape (env : ScrapeEnv) (w : World) (cid sid : Nat) :
    ((scrape_competitor_website env w cid sid).result.success = true ∧
      (scrape_competitor_website env w cid sid).result.error = none) ∨
    ((scrape_competitor_website env w cid sid).result.success = false ∧
      (scrape_competitor_website env w cid sid).result.error ≠ none) := by
  cases hl : lookupCompetitor w cid with
  | none => simp [scrape_competitor_website, hl]
  | some comp =>
    cases hf : env.fetchHtml comp.base_url with
    | error e => simp [scrape_competitor_website, hl, hf]
    | ok raw =>
      cases hi : pyIndex (split_into_batches
          (clean_html_content (env.parseHtml raw)) 7500) 2 with
      | error e => simp [scrape_competitor_website, hl, hf, hi]
      | ok batch => simp [scrape_competitor_website, hl, hf, hi]

/-- At most one batch is ever submitted to the extraction client. -/
theorem scrape_submitted_le_one (env : ScrapeEnv) (w : World) (cid sid : Nat) :
    (scrape_competitor_website env w cid sid).submitted.length ≤ 1 := by
  cases hl : lookupCompetitor w cid with
  | none => simp [scrape_competitor_website, hl]
  | some comp =>
    cases hf : env.fetchHtml comp.base_url with
    | error e => simp [scrape_competitor_website, hl, hf]
    | ok raw =>
      cases hi : pyIndex (split_into_batches
          (clean_html_content (env.parseHtml raw)) 7500) 2 with
      | error e => simp [scrape_competitor_website, hl, hf, hi]
      | ok batch => simp [scrape_competitor_website, hl, hf, hi]

/-- When at least three batches exist, the submitted list is exactly the
singleton third batch. -/
theorem scrape_submits_only_index2 (env : ScrapeEnv) (w : World) (cid sid : Nat)
    (comp : CompetitorState) (raw : Txt)
    (hl : lookupCompetitor w cid = some comp)
    (hf : env.fetchHtml comp.base_url = .ok raw)
    (hlen : 2 < (split_into_batches (clean_html_content (env.parseHtml raw)) 7500).length) :
    (scrape_competitor_website env w cid sid).submitted =
      [(split_into_batches (clean_html_content (env.parseHtml raw)) 7500).getD 2 []] := by
  obtain ⟨b, hb⟩ : ∃ b, (split_into_batches
      (clean_html_content (env.parseHtml raw)) 7500).get? 2 = some b :=
    ⟨_, List.get?_eq_some.mpr ⟨hlen, rfl⟩⟩
  have hi : pyIndex (split_into_batches
      (clean_html_content (env.parseHtml raw)) 7500) 2 = .ok b := by
    rw [pyIndex, hb]
  simp only [scrape_competitor_website, hl, hf, hi]
  rw [List.getD, hb]
  rfl

/-- The session trace of any run: the session is created `running`, stays
`running` across the raw-markup save, and ends in exactly one terminal state;
on completion `products_found` carries the returned count. -/
theorem scrape_trace (env : ScrapeEnv) (w : World) (cid sid : Nat)
    (comp : CompetitorState) (hl : lookupCompetitor w cid = some comp) :
    ((scrape_competitor_website env w cid sid).sessionTrace.map (fun s => s.status) =
        [.running, .failed] ∨
      (scrape_competitor_website env w cid sid).sessionTrace.map (fun s => s.status) =
        [.running, .running, .failed] ∨
      (scrape_competitor_website env w cid sid).sessionTrace.map (fun s => s.status) =
        [.running, .running, .completed]) ∧
    (∀ s ∈ (scrape_competitor_website env w cid sid).sessionTrace,
      s.status ≠ .pending) ∧
    (∀ s ∈ (scrape_competitor_website env w cid sid).sessionTrace,
      s.status = .completed →
        s.products_found =
          (scrape_competitor_website env w cid sid).result.products_found.getD 0) := by
  cases hf : env.fetchHtml comp.base_url with
  | error e =>
    simp only [scrape_competitor_website, hl, hf]
    refine ⟨Or.inl rfl, ?_, ?_⟩
    · intro s hs
      simp only [List.mem_cons, List.not_mem_nil, or_false] at hs
      rcases hs with rfl | rfl
      · simp
      · simp
    · intro s hs hc
      simp only [List.mem_cons, List.not_mem_nil, or_false] at hs
      rcases hs with rfl | rfl
      · simp at hc
      · simp at hc
  | ok raw =>
    cases hi : pyIndex (split_into_batches
        (clean_html_content (env.parseHtml raw)) 7500) 2 with
    | error e =>
      simp only [scrape_competitor_website, hl, hf, hi]
      refine ⟨Or.inr (Or.inl rfl), ?_, ?_⟩
      · intro s hs
        simp only [List.mem_cons, List.not_mem_nil, or_false] at hs
        rcases hs with rfl | rfl | rfl
        · simp
        · simp
        · simp
      · intro s hs hc
        simp only [List.mem_cons, List.not_mem_nil, or_false] at hs
        rcases hs with rfl | rfl | rfl
        · simp at hc
        · simp at hc
        · simp at hc
    | ok batch =>
      simp only [scrape_competitor_website, hl, hf, hi]
      refine ⟨Or.inr (Or.inr rfl), ?_, ?_⟩
      · intro s hs
        simp only [List.mem_cons, List.not_mem_nil, or_false] at hs
        rcases hs with rfl | rfl | rfl
        · simp
        · simp
        · simp
      · intro s hs hc
        simp only [List.mem_cons, List.not_mem_nil, or_false] at hs
        rcases hs with rfl | rfl | rfl
        · simp at hc
        · simp at hc
        · rfl

end ControllerLemmas

/-!  ## Claim-level theorems -/

/-- C1: the claim states that `analyze_price_changes` reads the two most
recent ledger rows per product and creates a price-change alert when the
percentage change is at least 5 percent.  The code instead raises
`AttributeError` at `recent_prices.price` (scraper.py line 215, attribute
access on a QuerySet) for any product with at least two rows, before any
comparison: on a competitor whose product SKU1 has rows 100 then 80 — where
the claim requires one `price_decrease` alert of severity high — the
operation raises. -/
theorem c1_analyze_price_changes_crashes :
    ((priceHistoryDesc compWithHistory prodSKU1).take 2).length = 2 ∧
    analyze_price_changes worldWithHistory 1 = .error PyExn.attributeError :=
  ⟨by decide, rfl⟩

/-- C2: the claim states that every one of the k batches is submitted to the
Extraction Client.  The controller submits at most one batch (only index 2)
on every run, and a run whose cleaned text fits in a single batch submits no
batch at all: it fails with `IndexError` (`list index out of range`) before
any extraction. -/
theorem c2_only_one_batch_submitted :
    (∀ (env : ScrapeEnv) (w : World) (cid sid : Nat),
      (scrape_competitor_website env w cid sid).submitted.length ≤ 1) ∧
    (scrape_competitor_website shortPageEnv worldWithHistory 1 7).submitted = [] ∧
    (scrape_competitor_website shortPageEnv worldWithHistory 1 7).result.success = false ∧
    (scrape_competitor_website shortPageEnv worldWithHistory 1 7).result.error =
      some (txt "list index out of range") ∧
    split_into_batches (clean_html_content
      (shortPageEnv.parseHtml (txt "Produits du concurrent"))) 7500 =
      [txt "Produits du concurrent"] :=
  ⟨scrape_submitted_le_one, by decide, by decide, by decide, by decide⟩

/-- C3 counterexample: re-splitting the `". "`-joined batches does not
reproduce the original sentence sequence, because every batch carries a
trailing period: at text `"ab. cd"` and bound 3 the batches are
`["ab.", "cd."]` and the rejoined split is `["ab.", "cd."]`, not
`["ab", "cd"]`. -/
theorem c3_rejoin_counterexample :
    pySplitDotSpace (joinSep dotSpace (split_into_batches (txt "ab. cd") 3)) ≠
      pySplitDotSpace (txt "ab. cd") ∧
    split_into_batches (txt "ab. cd") 3 = [txt "ab.", txt "cd."] :=
  ⟨by decide, by decide⟩

/-- C3 (amended): batching loses no sentence content — joining all batches
with a single blank reproduces the original text followed by one appended
trailing period, for any text longer than the bound whose sentences do not
begin with a whitespace character (otherwise `str.strip` also trims that
whitespace at a batch boundary). -/
theorem c3_join_batches_reconstruct (text : Txt) (maxc : Nat)
    (hlen : maxc < text.length)
    (hs : ∀ s ∈ pySplitDotSpace text, noLeadWS s = true) :
    joinSep [' '] (split_into_batches text maxc) = text ++ ['.'] :=
  split_into_batches_join text maxc hlen hs

theorem c3_join_batches_reconstruct_witness :
    3 < (txt "ab. cd").length ∧
    (∀ s ∈ pySplitDotSpace (txt "ab. cd"), noLeadWS s = true) ∧
    joinSep [' '] (split_into_batches (txt "ab. cd") 3) = txt "ab. cd" ++ ['.'] :=
  ⟨by decide, by decide, c3_join_batches_reconstruct (txt "ab. cd") 3 (by decide) (by decide)⟩

/-- C4: reconciling a record list: the count is one per record; exactly one
ledger row per record, carrying the record price and the session id, is
appended in order; a product exists afterwards exactly for previously known
or just-seen identifiers (so an identifier seen twice never creates two
`Product` rows while distinct identifiers stay distinct); the `new_product`
alert of severity medium is created exactly once, on the first sighting of a
fresh identifier only; and every alert the run adds is such a medium
`new_product` alert for one of the records. -/
theorem c4_reconciler_invariants (records : List ExtractedRecord) (burl : Txt)
    (sid : Nat) (db : CompetitorState) :
    (save_products_to_database records burl sid db).2 = records.length ∧
    (save_products_to_database records burl sid db).1.history =
      db.history ++ records.map (fun r => ⟨r.product_identifier, r.price, some sid⟩) ∧
    (∀ i, prodExists (save_products_to_database records burl sid db).1 i =
      (prodExists db i || records.any (fun r => r.product_identifier == i))) ∧
    ((identsOf db).Nodup →
      (identsOf (save_products_to_database records burl sid db).1).Nodup) ∧
    (∀ i, newProductAlertCount (save_products_to_database records burl sid db).1 i =
      newProductAlertCount db i +
        (if prodExists db i then 0
         else if records.any (fun r => r.product_identifier == i) then 1 else 0)) ∧
    (∀ a ∈ (save_products_to_database records burl sid db).1.alerts,
      a ∈ db.alerts ∨ ∃ r ∈ records,
        a = ⟨AlertType.new_product, Severity.medium, r.product_identifier, none, r.price⟩) :=
  ⟨rfl, fold_history burl sid records db,
   fun i => fold_prodExists burl sid records db i,
   fold_nodup burl sid records db,
   fun i => fold_alertCount burl sid records db i,
   fold_alerts burl sid records db⟩

theorem c4_reconciler_invariants_witness :
    (identsOf emptyComp).Nodup ∧
    (identsOf (save_products_to_database [recSKU1, recSKU1b]
      (txt "https://shop.example") 7 emptyComp).1).Nodup ∧
    (save_products_to_database [recSKU1, recSKU1b]
      (txt "https://shop.example") 7 emptyComp).1.products.length = 1 ∧
    (save_products_to_database [recSKU1, recSKU1b]
      (txt "https://shop.example") 7 emptyComp).1.history.length = 2 ∧
    newProductAlertCount (save_products_to_database [recSKU1, recSKU1b]
      (txt "https://shop.example") 7 emptyComp).1 (txt "SKU1") = 1 ∧
    (save_products_to_database [recSKU1, recSKU1b]
      (txt "https://shop.example") 7 emptyComp).1.alerts =
      [⟨AlertType.new_product, Severity.medium, txt "SKU1", none, 100⟩] :=
  ⟨by decide,
   (c4_reconciler_invariants [recSKU1, recSKU1b] (txt "https://shop.example") 7
     emptyComp).2.2.2.1 (by decide),
   by decide, by decide, by decide, by decide⟩

/-- C5 counterexample: `run_price_analysis` does not catch exceptions raised
inside the analysis loop: on a competitor whose product SKU2 has two ledger
rows, the `AttributeError` raised at the queryset attribute access escapes to
the caller instead of a structured result. -/
theorem c5_exception_escapes_counterexample :
    analyze_price_changes worldTwoRows 1 = .error PyExn.attributeError :=
  rfl

/-- C5 (amended): `run_scrape` catches everything raised after session
creation and always returns a well-shaped payload (`success` with no error
key, or failure with an error message); `run_price_analysis` guards only the
competitor lookup — a missing competitor yields the structured failure
payload, but exceptions inside the loop propagate (see counterexample). -/
theorem c5_boundary_amended (env : ScrapeEnv) (w : World) (cid sid : Nat) :
    (((scrape_competitor_website env w cid sid).result.success = true ∧
       (scrape_competitor_website env w cid sid).result.error = none) ∨
     ((scrape_competitor_website env w cid sid).result.success = false ∧
       (scrape_competitor_website env w cid sid).result.error ≠ none)) ∧
    (lookupCompetitor w cid = none →
      analyze_price_changes w cid =
        .ok (w, ⟨false, none, some (txt "Concurrent introuvable")⟩)) :=
  ⟨scrape_result_shape env w cid sid, analyze_notfound w cid⟩

theorem c5_boundary_amended_witness :
    (((scrape_competitor_website shortPageEnv emptyWorld 1 7).result.success = true ∧
       (scrape_competitor_website shortPageEnv emptyWorld 1 7).result.error = none) ∨
     ((scrape_competitor_website shortPageEnv emptyWorld 1 7).result.success = false ∧
       (scrape_competitor_website shortPageEnv emptyWorld 1 7).result.error ≠ none)) ∧
    analyze_price_changes emptyWorld 1 =
      .ok (emptyWorld, ⟨false, none, some (txt "Concurrent introuvable")⟩) :=
  ⟨(c5_boundary_amended shortPageEnv emptyWorld 1 7).1,
   (c5_boundary_amended shortPageEnv emptyWorld 1 7).2 (by decide)⟩

/-- C6 counterexample: the strict processor (`extract_products_with_llm`)
returns a whole-batch-empty product list as soon as one entry is malformed:
on a response holding one valid entry and one entry with price -5, it
returns no products although the first entry validates on its own. -/
theorem c6_whole_batch_empty_counterexample :
    (llmValidateContent mixedResponse).products = [] ∧
    (validateProduct 3 goodEntry).isSome = true ∧
    validateProduct 3 badEntry = none :=
  ⟨by decide, by decide, by decide⟩

/-- C6 (amended): the per-entry salvage lives in
`extract_products_with_small_llm`, which returns exactly the individually
valid entries of every response; `extract_products_with_llm` instead returns
an empty product list whenever some entry fails validation. -/
theorem c6_per_entry_validation_amended (r : RawResponse) :
    (smallValidateContent r).products =
      (r.products.getD []).filterMap (validateProduct 10) ∧
    ((∃ e ∈ r.products.getD [], validateProduct 3 e = none) →
      (llmValidateContent r).products = []) :=
  ⟨smallValidateContent_products r, llmValidateContent_empty_of_invalid r⟩

theorem c6_per_entry_validation_witness :
    (smallValidateContent mixedResponse).products =
      (mixedResponse.products.getD []).filterMap (validateProduct 10) ∧
    (llmValidateContent mixedResponse).products = [] :=
  ⟨(c6_per_entry_validation_amended mixedResponse).1,
   (c6_per_entry_validation_amended mixedResponse).2 ⟨badEntry, by decide, by decide⟩⟩

/-- C7 counterexample: the session row is created already in status
`running` (`ScrapeSession.objects.create(status='running')`, scraper.py
lines 25-28): on a concrete failed run the saved statuses are
running, running, failed — the first saved status is not `pending`. -/
theorem c7_created_running_counterexample :
    ((scrape_competitor_website shortPageEnv worldTwoRows 1 7).sessionTrace.map
      (fun s => s.status)) = [.running, .running, .failed] ∧
    SessionStatus.running ≠ SessionStatus.pending :=
  ⟨by decide, by decide⟩

/-- C7 (amended): the session is created directly in status `running` (never
`pending`, although `pending` is the model default) and thereafter only moves
running to completed or running to failed; a terminal status is saved exactly
once, as the last state of the run, and the completed snapshot carries the
returned `products_found` count. -/
theorem c7_session_states_amended (env : ScrapeEnv) (w : World) (cid sid : Nat)
    (comp : CompetitorState) (hl : lookupCompetitor w cid = some comp) :
    ((scrape_competitor_website env w cid sid).sessionTrace.map (fun s => s.status) =
        [.running, .failed] ∨
      (scrape_competitor_website env w cid sid).sessionTrace.map (fun s => s.status) =
        [.running, .running, .failed] ∨
      (scrape_competitor_website env w cid sid).sessionTrace.map (fun s => s.status) =
        [.running, .running, .completed]) ∧
    (∀ s ∈ (scrape_competitor_website env w cid sid).sessionTrace,
      s.status ≠ .pending) ∧
    (∀ s ∈ (scrape_competitor_website env w cid sid).sessionTrace,
      s.status = .completed →
        s.products_found =
          (scrape_competitor_website env w cid sid).result.products_found.getD 0) :=
  scrape_trace env w cid sid comp hl

theorem c7_session_states_witness :
    ((scrape_competitor_website shortPageEnv worldWithHistory 1 7).sessionTrace.map
        (fun s => s.status) = [.running, .failed] ∨
      (scrape_competitor_website shortPageEnv worldWithHistory 1 7).sessionTrace.map
        (fun s => s.status) = [.running, .running, .failed] ∨
      (scrape_competitor_website shortPageEnv worldWithHistory 1 7).sessionTrace.map
        (fun s => s.status) = [.running, .running, .completed]) ∧
    (∀ s ∈ (scrape_competitor_website shortPageEnv worldWithHistory 1 7).sessionTrace,
      s.status ≠ .pending) ∧
    (∀ s ∈ (scrape_competitor_website shortPageEnv worldWithHistory 1 7).sessionTrace,
      s.status = .completed →
        s.products_found =
          (scrape_competitor_website shortPageEnv worldWithHistory 1 7).result.products_found.getD 0) :=
  c7_session_states_amended shortPageEnv worldWithHistory 1 7 compWithHistory (by decide)

/-- C8 counterexample: a batch can exceed the bound even though no sentence
is longer than the bound, because the flushed batch carries an appended
period: at text `"ab. abc"` and bound 3, the batch `"abc."` has length 4
while every sentence has length at most 3. -/
theorem c8_oversized_batch_counterexample :
    split_into_batches (txt "ab. abc") 3 = [txt "ab.", txt "abc."] ∧
    (txt "abc.").length = 4 ∧
    (∀ s ∈ pySplitDotSpace (txt "ab. abc"), s.length ≤ 3) :=
  ⟨by decide, by decide, by decide⟩

/-- C8 (amended): a text within the bound comes back as the single-element
sequence, and every batch either fits the bound or is the stripped whole of
one single sentence `s` with terminator, `strip(s ++ ". ")`, emitted because
`s.length + 2` overflows the bound — oversized sentences are never
truncated, but the exact threshold is `length + 2 > bound`, not
`length > bound` as claimed. -/
theorem c8_batch_bound_amended (text : Txt) (maxc : Nat) :
    (text.length ≤ maxc → split_into_batches text maxc = [text]) ∧
    ∀ b ∈ split_into_batches text maxc,
      b.length ≤ maxc ∨
        ∃ s ∈ pySplitDotSpace text, b = pyStrip (s ++ dotSpace) ∧ maxc < s.length + 2 := by
  constructor
  · intro h
    rw [split_into_batches, if_pos h]
  · intro b hb
    rw [split_into_batches] at hb
    split at hb
    · rename_i h
      simp only [List.mem_singleton] at hb
      subst hb
      exact Or.inl h
    · exact batchLoop_bound maxc (pySplitDotSpace text) (pySplitDotSpace text)
        (fun s hs => hs) [] (Or.inl rfl) b hb

theorem c8_batch_bound_witness :
    split_into_batches (txt "ab") 5 = [txt "ab"] ∧
    (∀ b ∈ split_into_batches (txt "ab. abc") 3,
      b.length ≤ 3 ∨
        ∃ s ∈ pySplitDotSpace (txt "ab. abc"),
          b = pyStrip (s ++ dotSpace) ∧ 3 < s.length + 2) :=
  ⟨(c8_batch_bound_amended (txt "ab") 5).1 (by decide),
   (c8_batch_bound_amended (txt "ab. abc") 3).2⟩

/-- C9 counterexample: `get_text(separator=' ', strip=True)` strips only the
ends of each text node, so a whitespace run inside one text node survives
cleaning: a paragraph holding the text `"a  b"` cleans to `"a  b"`, which
contains a run of two blanks. -/
theorem c9_ws_run_counterexample :
    clean_html_content runTree = txt "a  b" ∧
    ¬ noWsRun (clean_html_content runTree) :=
  ⟨by decide, by decide⟩

/-- C9 (amended): decomposition removes exactly the text under the listed
non-content tags (the surviving strings are precisely the text nodes not
dominated by a blacklisted element), and the single-blank separators of
`get_text` never create whitespace runs — the output has a run only when a
single text node already contains one. -/
theorem c9_cleaner_amended (root : HNode) :
    stringsList (removeTagsList [root]) = visibleStringsNode root ∧
    ((∀ s ∈ visibleStringsNode root, noWsRun s) → noWsRun (clean_html_content root)) := by
  constructor
  · rw [strings_removeTags_list, visibleStringsList, visibleStringsList, List.append_nil]
  · exact clean_html_content_noWsRun root

theorem c9_cleaner_amended_witness :
    stringsList (removeTagsList [scriptTree]) = visibleStringsNode scriptTree ∧
    noWsRun (clean_html_content scriptTree) :=
  ⟨(c9_cleaner_amended scriptTree).1, (c9_cleaner_amended scriptTree).2 (by decide)⟩

/-- C10: the user message interpolates only `text_batch[:5000]`: the prompt
built from any batch equals the prompt built from its first 5000 characters,
and two batches agreeing on their first 5000 characters produce identical
extraction requests — content beyond character 5000 never reaches the
model. -/
theorem c10_prompt_take5000 (url b1 b2 : Txt) (h : b1.take 5000 = b2.take 5000) :
    userPrompt url b1 = userPrompt url (b1.take 5000) ∧
    userPrompt url b1 = userPrompt url b2 := by
  constructor
  · rw [userPrompt, userPrompt, List.take_take]
    norm_num
  · rw [userPrompt, userPrompt, h]

theorem c10_prompt_take5000_witness :
    userPrompt (txt "https://shop.example") (List.replicate 5000 'a' ++ txt "x") =
      userPrompt (txt "https://shop.example")
        ((List.replicate 5000 'a' ++ txt "x").take 5000) ∧
    userPrompt (txt "https://shop.example") (List.replicate 5000 'a' ++ txt "x") =
      userPrompt (txt "https://shop.example") (List.replicate 5000 'a' ++ txt "y") :=
  c10_prompt_take5000 (txt "https://shop.example") _ _
    (by rw [List.take_left' (List.length_replicate 5000 'a'),
      List.take_left' (List.length_replicate 5000 'a')])
